import Mathlib

/-!
Shallow embedding of `server/libs/uploads-agent.js` (uploads agent of the
wiki): identifier hashing, file classification (`processFile`), the initial
scan (`initialScan`), and the live watcher handlers (`watch`), together with
the path-library behaviour they rely on (`path.join`, `path.parse`).

External collaborators (the filesystem, the `image-size`/`jimp` libraries,
the MIME sniffer and extension table) are modelled as an environment `Fs` of
abstract functions; the document store (`db.UplFile` / `db.UplFolder`) and
the git history collaborator are modelled as explicit state.
-/

namespace UploadsAgent

/-! ## Node path library (the fragment used by the agent)

`path.parse` splits a path into `dir` (before the last separator), `base`
(after it), `name`/`ext` (base split at its last dot, Node's dot-file rule:
a dot in first position of the base starts no extension). -/

/-- Split a list at the LAST occurrence of `c`: `some (before, after)`,
or `none` when `c` does not occur. -/
def breakLast (c : Char) : List Char → Option (List Char × List Char)
  | [] => none
  | x :: xs =>
    match breakLast c xs with
    | some (d, b) => some (x :: d, b)
    | none => if x = c then some ([], xs) else none

/-- Result of Node `path.parse`. -/
structure PathObj where
  dir : String
  base : String
  name : String
  ext : String
  deriving DecidableEq, Repr

/-- Node `path.parse` on the relative paths the agent handles (no drive
letters, no root normalisation: watcher paths are relative to the uploads
root because chokidar is started with `cwd`). -/
def pathParse (p : String) : PathObj :=
  let db :=
    match breakLast '/' p.data with
    | none => ([], p.data)
    | some (d, b) => (d, b)
  let ne :=
    match breakLast '.' db.2 with
    | none => (db.2, [])
    | some ([], _) => (db.2, [])          -- dot-file: ".gitignore" has no ext
    | some (n, e) => (n, '.' :: e)
  { dir := String.mk db.1, base := String.mk db.2,
    name := String.mk ne.1, ext := String.mk ne.2 }

/-- Node `path.join` for the two-segment joins the agent performs (no `.` or
`..` segments occur in those joins, so no normalisation is needed). -/
def pathJoin (a b : String) : String :=
  if a = "" then b else if b = "" then a else a ++ "/" ++ b

/-! ## MD5 (`crypto.createHash('md5')...digest('hex')`)

The identifier of a file record is the hex MD5 digest of
`folderName + "/" + filename`; RFC 1321 implemented over `Nat` with explicit
reduction mod 2^32. -/

/-- UTF-8 encoding of one code point, as byte values. -/
def utf8EncodeCharNat (n : Nat) : List Nat :=
  if n < 128 then [n]
  else if n < 2048 then [192 + n / 64, 128 + n % 64]
  else if n < 65536 then [224 + n / 4096, 128 + (n / 64) % 64, 128 + n % 64]
  else [240 + n / 262144, 128 + (n / 4096) % 64, 128 + (n / 64) % 64, 128 + n % 64]

/-- UTF-8 bytes of a string. -/
def utf8Bytes (s : String) : List Nat :=
  (s.data.map (fun c => utf8EncodeCharNat c.toNat)).flatten

/-- Left-rotation of a 32-bit word. -/
def rotl32 (x s : Nat) : Nat :=
  ((x <<< s) + (x >>> (32 - s))) % 4294967296

def md5F (b c d : Nat) : Nat := (b &&& c) ||| ((b ^^^ 4294967295) &&& d)
def md5G (b c d : Nat) : Nat := (d &&& b) ||| ((d ^^^ 4294967295) &&& c)
def md5H (b c d : Nat) : Nat := b ^^^ c ^^^ d
def md5I (b c d : Nat) : Nat := c ^^^ (b ||| (d ^^^ 4294967295))

/-- The 64 MD5 sine constants. -/
def md5K : List Nat :=
  [0xd76aa478, 0xe8c7b756, 0x242070db, 0xc1bdceee,
   0xf57c0faf, 0x4787c62a, 0xa8304613, 0xfd469501,
   0x698098d8, 0x8b44f7af, 0xffff5bb1, 0x895cd7be,
   0x6b901122, 0xfd987193, 0xa679438e, 0x49b40821,
   0xf61e2562, 0xc040b340, 0x265e5a51, 0xe9b6c7aa,
   0xd62f105d, 0x02441453, 0xd8a1e681, 0xe7d3fbc8,
   0x21e1cde6, 0xc33707d6, 0xf4d50d87, 0x455a14ed,
   0xa9e3e905, 0xfcefa3f8, 0x676f02d9, 0x8d2a4c8a,
   0xfffa3942, 0x8771f681, 0x6d9d6122, 0xfde5380c,
   0xa4beea44, 0x4bdecfa9, 0xf6bb4b60, 0xbebfbc70,
   0x289b7ec6, 0xeaa127fa, 0xd4ef3085, 0x04881d05,
   0xd9d4d039, 0xe6db99e5, 0x1fa27cf8, 0xc4ac5665,
   0xf4292244, 0x432aff97, 0xab9423a7, 0xfc93a039,
   0x655b59c3, 0x8f0ccc92, 0xffeff47d, 0x85845dd1,
   0x6fa87e4f, 0xfe2ce6e0, 0xa3014314, 0x4e0811a1,
   0xf7537e82, 0xbd3af235, 0x2ad7d2bb, 0xeb86d391]

/-- The 64 per-round left-rotation amounts. -/
def md5S : List Nat :=
  [7, 12, 17, 22, 7, 12, 17, 22, 7, 12, 17, 22, 7, 12, 17, 22,
   5, 9, 14, 20, 5, 9, 14, 20, 5, 9, 14, 20, 5, 9, 14, 20,
   4, 11, 16, 23, 4, 11, 16, 23, 4, 11, 16, 23, 4, 11, 16, 23,
   6, 10, 15, 21, 6, 10, 15, 21, 6, 10, 15, 21, 6, 10, 15, 21]

/-- One MD5 round on state `(a, b, c, d)` with message words `m`. -/
def md5Round (m : List Nat) (st : Nat × Nat × Nat × Nat) (i : Nat) :
    Nat × Nat × Nat × Nat :=
  let (a, b, c, d) := st
  let fg : Nat × Nat :=
    if i < 16 then (md5F b c d, i)
    else if i < 32 then (md5G b c d, (5 * i + 1) % 16)
    else if i < 48 then (md5H b c d, (3 * i + 5) % 16)
    else (md5I b c d, (7 * i) % 16)
  let f := (fg.1 + a + md5K.getD i 0 + m.getD fg.2 0) % 4294967296
  (d, (b + rotl32 f (md5S.getD i 0)) % 4294967296, b, c)

/-- MD5 padding: append `0x80`, zero bytes to 56 mod 64, then the original
bit length as 8 little-endian bytes. -/
def md5Pad (msg : List Nat) : List Nat :=
  let bitLen := 8 * msg.length
  let z := (55 - msg.length % 64 + 64) % 64
  msg ++ [128] ++ List.replicate z 0 ++
    ((List.range 8).map (fun i => (bitLen >>> (8 * i)) % 256))

/-- Split a padded message into 64-byte chunks. -/
def md5Chunks (l : List Nat) : List (List Nat) :=
  (List.range ((l.length + 63) / 64)).map (fun i => ((l.drop (64 * i)).take 64))

/-- The 16 little-endian 32-bit words of one chunk. -/
def md5Words (chunk : List Nat) : List Nat :=
  (List.range 16).map (fun j =>
    chunk.getD (4 * j) 0 + 256 * chunk.getD (4 * j + 1) 0 +
    65536 * chunk.getD (4 * j + 2) 0 + 16777216 * chunk.getD (4 * j + 3) 0)

/-- Absorb one chunk into the running digest. -/
def md5Chunk (h : Nat × Nat × Nat × Nat) (chunk : List Nat) :
    Nat × Nat × Nat × Nat :=
  let m := md5Words chunk
  let r := (List.range 64).foldl (md5Round m) h
  ((h.1 + r.1) % 4294967296, (h.2.1 + r.2.1) % 4294967296,
   (h.2.2.1 + r.2.2.1) % 4294967296, (h.2.2.2 + r.2.2.2) % 4294967296)

def hexDigit (n : Nat) : Char :=
  if n < 10 then Char.ofNat (48 + n) else Char.ofNat (87 + n)

def byteHex (b : Nat) : List Char := [hexDigit (b / 16), hexDigit (b % 16)]

/-- Little-endian hex rendering of one 32-bit word. -/
def word32LEHex (w : Nat) : List Char :=
  byteHex (w % 256) ++ byteHex ((w >>> 8) % 256) ++
  byteHex ((w >>> 16) % 256) ++ byteHex ((w >>> 24) % 256)

/-- `crypto.createHash('md5').update(s).digest('hex')`. -/
def md5Hex (s : String) : String :=
  let h := (md5Chunks (md5Pad (utf8Bytes s))).foldl md5Chunk
    (0x67452301, 0xefcdab89, 0x98badcfe, 0x10325476)
  String.mk (word32LEHex h.1 ++ word32LEHex h.2.1 ++
    word32LEHex h.2.2.1 ++ word32LEHex h.2.2.2)

/-! ## Data model and environment -/

/-- The resolved uploads root (`self._uploadsPath`). -/
def _uploadsPath : String := "./repo/uploads"

/-- The resolved thumbnail cache root (`self._uploadsThumbsPath`). -/
def _uploadsThumbsPath : String := "./data/thumbs"

/-- Result of `fs.stat`: the two predicates the agent queries, plus size. -/
structure Stat where
  isFile : Bool
  isDirectory : Bool
  size : Nat
  deriving DecidableEq, Repr

/-- Image dimensions, the value of `image-size` (the fields the record keeps). -/
structure Dim where
  width : Nat
  height : Nat
  deriving DecidableEq, Repr

/-- The external collaborators of the agent, as one read-only environment:
the uploads-root filesystem, the MIME sniffer (`file-type` over the first
262 bytes), the extension table (`mime.lookup`), the `image-size` reader
and the `jimp` decoder/writer. A `none`/`false` marks the library call
failing (throwing or yielding nothing) at that path. -/
structure Fs where
  /-- `fs.readdir` of a directory; `none` = the call rejects. -/
  readdir : String → Option (List String)
  /-- `fs.stat` of a path under the uploads root; `none` = the call rejects. -/
  stat : String → Option Stat
  /-- `fileType(readChunk.sync(p, 0, 262))`; `none` = no sniffing match. -/
  sniff : String → Option String
  /-- `mime.lookup(ext)` keyed by extension; `none` = falsy lookup result. -/
  extMime : String → Option String
  /-- `image-size` of a path; `none` = dimension extraction throws. -/
  imgSize : String → Option Dim
  /-- whether `jimp` can decode, resize and write this source image. -/
  jimpOk : String → Bool

/-- One `db.UplFile` document as built by `processFile`. -/
structure FileRecord where
  _id : String
  category : String
  mime : String
  /-- `extra` (image dimensions); absent on binary records. -/
  extra : Option Dim
  folder : String
  filename : String
  basename : String
  filesize : Nat
  deriving DecidableEq, Repr

/-- One `db.UplFolder` document as built by `initialScan`. -/
structure Folder where
  _id : String
  name : String
  deriving DecidableEq, Repr

/-- One `git.commitUploads` history event (the `git:uploaded` /
`git:deleted` commit messages, carrying the path). -/
inductive HistEvent where
  | uploaded (p : String)
  | deleted (p : String)
  deriving DecidableEq, Repr

/-- The mutable world the agent acts on: the two catalog collections, the
thumbnail cache directory (set of paths at which a thumbnail file exists),
a trace of `generateThumbnail` invocations (source paths, most recent
last), and the git history (most recent first). -/
structure AgentState where
  uplFiles : List FileRecord
  uplFolders : List Folder
  thumbs : List String
  genCalls : List String
  history : List HistEvent
  deriving DecidableEq, Repr

/-- Outcome of one `processFile` call: a record, `false` (the path is not a
regular file — a skip), or a caught-and-logged error (the `catch` at the end
of `processFile` returns the result of `winston.error`, which is no record). -/
inductive ProcResult where
  | record (r : FileRecord)
  | skip
  | error
  deriving DecidableEq, Repr

/-- A `processFile` call's result together with the thumbnail-cache state it
leaves behind and the `generateThumbnail` calls it performed. -/
structure ProcOut where
  result : ProcResult
  thumbs : List String
  gens : List String
  deriving DecidableEq, Repr

/-! ## processFile -/

/-- The four MIME types eligible for the `image` category. -/
def imageMimes : List String :=
  ["image/png", "image/jpeg", "image/gif", "image/bmp"]

/-- Absolute path of a file: `path.join(path.join(uploadsPath, fldName), f)`. -/
def filePath (fldName f : String) : String :=
  pathJoin (pathJoin _uploadsPath fldName) f

/-- The MIME-info computation of `processFile`: content sniffing, else
extension lookup, else `application/octet-stream`. -/
def mimeFor (fs : Fs) (fPath ext : String) : String :=
  match fs.sniff fPath with
  | some m => m
  | none => (fs.extMime ext).getD "application/octet-stream"

/-- The identifier: `crypto.createHash('md5').update(fldName + '/' + f)
.digest('hex')`. -/
def fileUid (fldName f : String) : String := md5Hex (fldName ++ "/" ++ f)

/-- The thumbnail cache path `path.join(thumbsPath, fUid + '.png')`
(`path.format(path.parse(p))` is the identity on these paths). -/
def thumbPath (fUid : String) : String :=
  pathJoin _uploadsThumbsPath (fUid ++ ".png")

/-- `processFile(fldName, f)`: stat the file (a non-file is a skip), compute
MIME info, and build an `image` record (with dimensions, generating the
thumbnail unless it is already cached) when the size is under 3145728 bytes
AND the MIME type is one of `imageMimes`; otherwise a `binary` record.
Dimension-extraction and thumbnail failures are caught by the function's
`catch` and yield `.error`. `thumbs` is the thumbnail directory on entry;
the returned `ProcOut` carries the directory on exit and the
`generateThumbnail` invocations made. -/
def processFile (fs : Fs) (thumbs : List String) (fldName f : String) :
    ProcOut :=
  let fPath := filePath fldName f
  let fPathObj := pathParse fPath
  let fUid := fileUid fldName f
  match fs.stat fPath with
  | none => ⟨.error, thumbs, []⟩
  | some s =>
    if s.isFile then
      let mimeStr := mimeFor fs fPath fPathObj.ext
      if s.size < 3145728 ∧ mimeStr ∈ imageMimes then
        match fs.imgSize fPath with
        | none => ⟨.error, thumbs, []⟩
        | some dim =>
          let cachePath := thumbPath fUid
          let mData : FileRecord :=
            { _id := fUid, category := "image", mime := mimeStr,
              extra := some dim, folder := "f:" ++ fldName, filename := f,
              basename := fPathObj.name, filesize := s.size }
          if cachePath ∈ thumbs then ⟨.record mData, thumbs, []⟩
          else if fs.jimpOk fPath then
            ⟨.record mData, cachePath :: thumbs, [fPath]⟩
          else ⟨.error, thumbs, []⟩
      else
        ⟨.record { _id := fUid, category := "binary", mime := mimeStr,
                   extra := none, folder := "f:" ++ fldName, filename := f,
                   basename := fPathObj.name, filesize := s.size },
         thumbs, []⟩
    else ⟨.skip, thumbs, []⟩

/-! ## Watcher -/

/-- Result of `parseUploadsRelPath`. -/
structure RelPathInfo where
  folder : String
  filename : String
  deriving DecidableEq, Repr

/-- `parseUploadsRelPath(f)`: `path.parse` then
`{folder: dir, filename: base}`. -/
def parseUploadsRelPath (f : String) : RelPathInfo :=
  let fObj := pathParse f
  { folder := fObj.dir, filename := fObj.base }

/-- `db.UplFile.findByIdAndUpdate(id, data, {upsert: true})` on the
collection, for a call that carries a record: overwrite the document with
this `_id` if present, else insert. -/
def upsertById (l : List FileRecord) (r : FileRecord) : List FileRecord :=
  if l.any (fun x => x._id = r._id) then
    l.map (fun x => if x._id = r._id then r else x)
  else l ++ [r]

/-- The watcher's `add` handler: parse the relative path, run `processFile`,
upsert the resulting record by its `_id`, then emit the `git:uploaded`
history event. When `processFile` yields no record (skip or caught error)
the handler still reaches the store call and the history event, but no
identifier-keyed document changes: the store upserts by the record's
identifier (spec §6, `upsertById(id, record)`) and a non-record result
carries none. -/
def watcherAdd (fs : Fs) (st : AgentState) (p : String) : AgentState :=
  let pInfo := parseUploadsRelPath p
  let out := processFile fs st.thumbs pInfo.folder pInfo.filename
  let st1 := { st with thumbs := out.thumbs,
                       genCalls := st.genCalls ++ out.gens }
  match out.result with
  | .record r =>
    { st1 with uplFiles := upsertById st1.uplFiles r,
               history := .uploaded p :: st1.history }
  | _ => { st1 with history := .uploaded p :: st1.history }

/-- The watcher's `unlink` handler: emit the `git:deleted` history event;
nothing else. -/
def watcherUnlink (st : AgentState) (p : String) : AgentState :=
  { st with history := .deleted p :: st.history }

/-! ## Initial scan

`Promise.map` schedules file handlers concurrently; which record ends up in
`allFiles` does not depend on the schedule (each handler only pushes its own
record), so the traversal is modelled in listing order. A rejected folder
listing makes the composite `Promise.map` reject and is caught by the inner
`catch`; the `finally` then replaces the `UplFile` collection either way. -/

/-- How one `initialScan` run ends. `watcherStarted`: the scan reached
`upl.watch()`. `loggedFailure`: an error inside the `try` body reached the
outer `catch` (`winston.error('Failed during initial scan...')`) and the
watcher was not started. `thrown`: the rejection escaped `initialScan`
un-caught (and un-logged by the agent); the watcher was not started. -/
inductive ScanOutcome where
  | watcherStarted
  | loggedFailure
  | thrown
  deriving DecidableEq, Repr

/-- The top-level stat pass (`Promise.map(ls, ...)` at the start of the
scan): stat every entry; one rejection rejects the whole map. -/
def statEntries (fs : Fs) : List String → Option (List (String × Stat))
  | [] => some []
  | f :: rest =>
    match fs.stat (pathJoin _uploadsPath f) with
    | none => none
    | some s =>
      match statEntries fs rest with
      | none => none
      | some tl => some ((f, s) :: tl)

/-- The per-folder file loop: run `processFile` on each listed name;
a record is pushed onto `allFiles`, a skip or caught error only logs.
Returns the accumulated records and the updated thumbnail state/trace. -/
def processFolderFiles (fs : Fs) (fldName : String) :
    List String → List FileRecord → List String → List String →
    List FileRecord × List String × List String
  | [], acc, thumbs, gens => (acc, thumbs, gens)
  | f :: rest, acc, thumbs, gens =>
    let out := processFile fs thumbs fldName f
    match out.result with
    | .record r =>
      processFolderFiles fs fldName rest (acc ++ [r]) out.thumbs
        (gens ++ out.gens)
    | _ => processFolderFiles fs fldName rest acc out.thumbs (gens ++ out.gens)

/-- The folder traversal (`Promise.map(folderNames, ...)`): list each
folder and process its files; a folder whose listing rejects aborts the
traversal with `ok := false` (the rejection reaches the inner `catch`),
keeping what was accumulated so far. -/
def traverseFolders (fs : Fs) :
    List String → List FileRecord → List String → List String →
    Bool × List FileRecord × List String × List String
  | [], acc, thumbs, gens => (true, acc, thumbs, gens)
  | fldName :: rest, acc, thumbs, gens =>
    match fs.readdir (pathJoin _uploadsPath fldName) with
    | none => (false, acc, thumbs, gens)
    | some fList =>
      let pr := processFolderFiles fs fldName fList acc thumbs gens
      traverseFolders fs rest pr.1 pr.2.1 pr.2.2

/-- `initialScan()`: list the uploads root (a rejection here is OUTSIDE the
`try` and escapes un-logged); stat every entry and keep directories; replace
the `UplFolder` collection with root (`''`) plus those directories; traverse
all folders accumulating records (inner `try`/`catch` swallows a traversal
failure after logging it); in the `finally`, replace the `UplFile`
collection with exactly the accumulated records; then start the watcher.
Any error inside the outer `try` (modelled: a failing top-level stat)
reaches the outer `catch`, which logs and does not start the watcher. -/
def initialScan (fs : Fs) (st : AgentState) : ScanOutcome × AgentState :=
  match fs.readdir _uploadsPath with
  | none => (.thrown, st)
  | some ls =>
    match statEntries fs ls with
    | none => (.loggedFailure, st)
    | some entries =>
      let arrDirs := entries.filter (fun e => e.2.isDirectory)
      let folderNames := "" :: arrDirs.map (fun e => e.1)
      let st1 := { st with
        uplFolders := folderNames.map (fun f => ⟨"f:" ++ f, f⟩) }
      let tv := traverseFolders fs folderNames [] st1.thumbs st1.genCalls
      let st2 := { st1 with uplFiles := tv.2.1, thumbs := tv.2.2.1,
                            genCalls := tv.2.2.2 }
      (.watcherStarted, st2)

/-! ## Concrete test environments -/

/-- Project the record out of a result, with a default. -/
def resultRecordD (o : ProcResult) (dflt : FileRecord) : FileRecord :=
  match o with
  | .record r => r
  | _ => dflt

/-- An all-empty placeholder record. -/
def noRecord : FileRecord := ⟨"", "", "", none, "", "", "", 0⟩

/-- The empty starting world. -/
def st0 : AgentState := ⟨[], [], [], [], []⟩

/-- A demo uploads tree: one subfolder `a` holding five files (a small png,
a png whose dimension extraction fails, a text file, a png one byte under
the size threshold, a png exactly at the threshold) and one root-level file
`x.png`. -/
def fsDemo : Fs where
  readdir := fun p =>
    if p = "./repo/uploads" then some ["a", "x.png"]
    else if p = "./repo/uploads/a" then
      some ["f1.png", "bad.png", "f2.txt", "f3.png", "f4.png"]
    else none
  stat := fun p =>
    if p = "./repo/uploads/a" then some ⟨false, true, 0⟩
    else if p = "./repo/uploads/a/f1.png" then some ⟨true, false, 10⟩
    else if p = "./repo/uploads/a/bad.png" then some ⟨true, false, 20⟩
    else if p = "./repo/uploads/a/f2.txt" then some ⟨true, false, 30⟩
    else if p = "./repo/uploads/a/f3.png" then some ⟨true, false, 3145727⟩
    else if p = "./repo/uploads/a/f4.png" then some ⟨true, false, 3145728⟩
    else if p = "./repo/uploads/x.png" then some ⟨true, false, 5⟩
    else none
  sniff := fun p =>
    if p = "./repo/uploads/a/f1.png" then some "image/png"
    else if p = "./repo/uploads/a/bad.png" then some "image/png"
    else if p = "./repo/uploads/a/f3.png" then some "image/png"
    else if p = "./repo/uploads/a/f4.png" then some "image/png"
    else if p = "./repo/uploads/x.png" then some "image/png"
    else none
  extMime := fun e => if e = ".txt" then some "text/plain" else none
  imgSize := fun p =>
    if p = "./repo/uploads/a/f1.png" then some ⟨4, 3⟩
    else if p = "./repo/uploads/a/f3.png" then some ⟨2, 2⟩
    else if p = "./repo/uploads/x.png" then some ⟨1, 1⟩
    else none
  jimpOk := fun _ => true

/-- A second run over the same logical tree where `a/f1.png` has been
rewritten with different content (different size and dimensions). -/
def fsAlt : Fs :=
  { fsDemo with
    stat := fun p =>
      if p = "./repo/uploads/a/f1.png" then some ⟨true, false, 11⟩
      else fsDemo.stat p,
    imgSize := fun p =>
      if p = "./repo/uploads/a/f1.png" then some ⟨8, 6⟩
      else fsDemo.imgSize p }

/-- An environment where the uploads root lists one entry but every stat
call rejects. -/
def fsStatFail : Fs where
  readdir := fun p => if p = "./repo/uploads" then some ["ghost"] else none
  stat := fun _ => none
  sniff := fun _ => none
  extMime := fun _ => none
  imgSize := fun _ => none
  jimpOk := fun _ => false

/-- An environment where listing the uploads root itself rejects. -/
def fsNoRoot : Fs where
  readdir := fun _ => none
  stat := fun _ => none
  sniff := fun _ => none
  extMime := fun _ => none
  imgSize := fun _ => none
  jimpOk := fun _ => false

/-- The record `processFile` builds for `a/f1.png` in `fsDemo`. -/
def demoRec1 : FileRecord :=
  resultRecordD (processFile fsDemo [] "a" "f1.png").result noRecord

/-- The record `processFile` builds for `a/f1.png` in `fsAlt`. -/
def demoRec1Alt : FileRecord :=
  resultRecordD (processFile fsAlt [] "a" "f1.png").result noRecord

/-- The record `processFile` builds for `a/f3.png` (one byte under the
size threshold) in `fsDemo`. -/
def demoRec3 : FileRecord :=
  resultRecordD (processFile fsDemo [] "a" "f3.png").result noRecord

/-! ## Characterisation lemmas for `processFile` -/

/-- Any record produced by `processFile` carries the md5 identifier, the
folder key, the filename, the base name, the stat size, the computed MIME
type, and falls in exactly one of the two categories according to the
size-and-MIME test. -/
theorem processFile_record_eq (fs : Fs) (t : List String) (fld f : String)
    (r : FileRecord) (h : (processFile fs t fld f).result = .record r) :
    ∃ s, fs.stat (filePath fld f) = some s ∧ s.isFile = true ∧
      r._id = fileUid fld f ∧ r.folder = "f:" ++ fld ∧ r.filename = f ∧
      r.basename = (pathParse (filePath fld f)).name ∧ r.filesize = s.size ∧
      r.mime = mimeFor fs (filePath fld f) (pathParse (filePath fld f)).ext ∧
      ((r.category = "image" ∧ s.size < 3145728 ∧ r.mime ∈ imageMimes ∧
        ∃ d, fs.imgSize (filePath fld f) = some d ∧ r.extra = some d) ∨
       (r.category = "binary" ∧ r.extra = none ∧
        ¬(s.size < 3145728 ∧ r.mime ∈ imageMimes))) := by
  cases hstat : fs.stat (filePath fld f) with
  | none => simp [processFile, hstat] at h
  | some s =>
    simp only [processFile, hstat] at h
    by_cases hfile : s.isFile
    · simp only [hfile, if_true] at h
      by_cases hcond : s.size < 3145728 ∧
          mimeFor fs (filePath fld f) (pathParse (filePath fld f)).ext ∈
            imageMimes
      · rw [if_pos hcond] at h
        cases himg : fs.imgSize (filePath fld f) with
        | none => simp [himg] at h
        | some d =>
          simp only [himg] at h
          by_cases hmem : thumbPath (fileUid fld f) ∈ t
          · rw [if_pos hmem] at h
            simp only [ProcResult.record.injEq] at h
            subst h
            exact ⟨s, rfl, hfile, rfl, rfl, rfl, rfl, rfl, rfl,
              Or.inl ⟨rfl, hcond.1, hcond.2, d, rfl, rfl⟩⟩
          · rw [if_neg hmem] at h
            by_cases hjimp : fs.jimpOk (filePath fld f)
            · simp only [hjimp, if_true, ProcResult.record.injEq] at h
              subst h
              exact ⟨s, rfl, hfile, rfl, rfl, rfl, rfl, rfl, rfl,
                Or.inl ⟨rfl, hcond.1, hcond.2, d, rfl, rfl⟩⟩
            · simp only [hjimp, if_false] at h
              simp at h
      · rw [if_neg hcond] at h
        simp only [ProcResult.record.injEq] at h
        subst h
        exact ⟨s, rfl, hfile, rfl, rfl, rfl, rfl, rfl, rfl,
          Or.inr ⟨rfl, rfl, hcond⟩⟩
    · simp only [hfile, if_false] at h
      simp at h

/-- A call whose result is a caught error leaves the thumbnail cache
unchanged and performs no thumbnail generation. -/
theorem processFile_error_eq (fs : Fs) (t : List String) (fld f : String)
    (h : (processFile fs t fld f).result = .error) :
    processFile fs t fld f = ⟨.error, t, []⟩ := by
  cases hstat : fs.stat (filePath fld f) with
  | none => simp [processFile, hstat]
  | some s =>
    simp only [processFile, hstat] at h ⊢
    by_cases hfile : s.isFile
    · simp only [hfile, if_true] at h ⊢
      by_cases hcond : s.size < 3145728 ∧
          mimeFor fs (filePath fld f) (pathParse (filePath fld f)).ext ∈
            imageMimes
      · rw [if_pos hcond] at h ⊢
        cases himg : fs.imgSize (filePath fld f) with
        | none => simp [himg]
        | some d =>
          simp only [himg] at h ⊢
          by_cases hmem : thumbPath (fileUid fld f) ∈ t
          · rw [if_pos hmem] at h; simp at h
          · rw [if_neg hmem] at h ⊢
            by_cases hjimp : fs.jimpOk (filePath fld f)
            · simp [hjimp] at h
            · simp [hjimp]
      · rw [if_neg hcond] at h; simp at h
    · simp only [hfile, if_false] at h; simp at h

/-- A call whose result is a skip (not a regular file) leaves the thumbnail
cache unchanged and performs no thumbnail generation. -/
theorem processFile_skip_eq (fs : Fs) (t : List String) (fld f : String)
    (h : (processFile fs t fld f).result = .skip) :
    processFile fs t fld f = ⟨.skip, t, []⟩ := by
  cases hstat : fs.stat (filePath fld f) with
  | none => simp [processFile, hstat] at h
  | some s =>
    simp only [processFile, hstat] at h ⊢
    by_cases hfile : s.isFile
    · simp only [hfile, if_true] at h ⊢
      by_cases hcond : s.size < 3145728 ∧
          mimeFor fs (filePath fld f) (pathParse (filePath fld f)).ext ∈
            imageMimes
      · rw [if_pos hcond] at h
        cases himg : fs.imgSize (filePath fld f) with
        | none => simp [himg] at h
        | some d =>
          simp only [himg] at h
          by_cases hmem : thumbPath (fileUid fld f) ∈ t
          · rw [if_pos hmem] at h; simp at h
          · rw [if_neg hmem] at h
            by_cases hjimp : fs.jimpOk (filePath fld f)
            · simp [hjimp] at h
            · simp [hjimp] at h
      · rw [if_neg hcond] at h; simp at h
    · simp [hfile]

/-- A second call on the same unchanged file, started from the cache state
the first record-yielding call left, returns the same record, leaves the
cache unchanged, and performs no thumbnail generation. -/
theorem processFile_idem (fs : Fs) (t : List String) (fld f : String)
    (r : FileRecord) (t' g : List String)
    (h : processFile fs t fld f = ⟨.record r, t', g⟩) :
    processFile fs t' fld f = ⟨.record r, t', []⟩ := by
  cases hstat : fs.stat (filePath fld f) with
  | none => simp [processFile, hstat] at h
  | some s =>
    simp only [processFile, hstat] at h ⊢
    by_cases hfile : s.isFile
    · simp only [hfile, if_true] at h ⊢
      by_cases hcond : s.size < 3145728 ∧
          mimeFor fs (filePath fld f) (pathParse (filePath fld f)).ext ∈
            imageMimes
      · rw [if_pos hcond] at h ⊢
        cases himg : fs.imgSize (filePath fld f) with
        | none => simp [himg] at h
        | some d =>
          simp only [himg] at h ⊢
          by_cases hmem : thumbPath (fileUid fld f) ∈ t
          · rw [if_pos hmem] at h
            simp only [ProcOut.mk.injEq, ProcResult.record.injEq] at h
            obtain ⟨hr, ht, _⟩ := h
            subst hr; subst ht
            rw [if_pos hmem]
          · rw [if_neg hmem] at h
            by_cases hjimp : fs.jimpOk (filePath fld f)
            · simp only [hjimp, if_true, ProcOut.mk.injEq,
                ProcResult.record.injEq] at h
              obtain ⟨hr, ht, _⟩ := h
              subst hr; subst ht
              simp
            · simp [hjimp] at h
      · rw [if_neg hcond] at h ⊢
        simp only [ProcOut.mk.injEq, ProcResult.record.injEq] at h
        obtain ⟨hr, ht, _⟩ := h
        subst hr; subst ht
        rfl
    · simp [hfile] at h

/-- A file whose dimension extraction fails (an image under the size
threshold whose `image-size` call throws) is processed to a caught error,
from every thumbnail-cache state, leaving the state unchanged. -/
theorem processFile_imgSize_none (fs : Fs) (fld f : String) (s : Stat)
    (hstat : fs.stat (filePath fld f) = some s) (hfile : s.isFile = true)
    (hsz : s.size < 3145728)
    (hmime : mimeFor fs (filePath fld f) (pathParse (filePath fld f)).ext ∈
      imageMimes)
    (himg : fs.imgSize (filePath fld f) = none) :
    ∀ t, processFile fs t fld f = ⟨.error, t, []⟩ := by
  intro t
  simp [processFile, hstat, hfile, hsz, hmime, himg]

/-- A file that is processed to a caught error in every cache state is
transparent to the per-folder batch: the batch of its siblings accumulates
exactly the same records. -/
theorem processFolderFiles_error_transparent (fs : Fs) (fld x : String)
    (hx : ∀ t, processFile fs t fld x = ⟨.error, t, []⟩) :
    ∀ ys zs acc t g,
      processFolderFiles fs fld (ys ++ x :: zs) acc t g =
      processFolderFiles fs fld (ys ++ zs) acc t g := by
  intro ys zs acc t g
  induction ys generalizing acc t g with
  | nil => simp [processFolderFiles, hx t]
  | cons y ys ih =>
    simp only [List.cons_append, processFolderFiles]
    cases hres : (processFile fs t fld y).result <;> simp [ih]

/-- `findByIdAndUpdate(..., {upsert: true})` with an identifier absent from
the collection inserts the record at the end. -/
theorem upsertById_not_mem (l : List FileRecord) (r : FileRecord)
    (h : ∀ x ∈ l, x._id ≠ r._id) : upsertById l r = l ++ [r] := by
  unfold upsertById
  rw [if_neg]
  intro hc
  simp only [List.any_eq_true, decide_eq_true_eq] at hc
  obtain ⟨x, hx, he⟩ := hc
  exact h x hx he

/-- `findByIdAndUpdate(..., {upsert: true})` with an identifier already
present overwrites the document in place: upserting the same record again
leaves the collection unchanged. -/
theorem upsertById_append_self (l : List FileRecord) (r : FileRecord)
    (h : ∀ x ∈ l, x._id ≠ r._id) : upsertById (l ++ [r]) r = l ++ [r] := by
  unfold upsertById
  rw [if_pos]
  · rw [List.map_append]
    congr 1
    · calc l.map (fun x => if x._id = r._id then r else x)
          = l.map id := List.map_congr_left (fun x hx => if_neg (h x hx))
        _ = l := List.map_id l
    · simp
  · simp

/-- `breakLast` finds nothing when the character does not occur. -/
theorem breakLast_eq_none (c : Char) (l : List Char) (h : c ∉ l) :
    breakLast c l = none := by
  induction l with
  | nil => rfl
  | cons x xs ih =>
    simp only [List.mem_cons, not_or] at h
    have hx : ¬(x = c) := fun he => h.1 he.symm
    simp [breakLast, ih h.2, hx]

/-- A path without a separator parses to the root folder (empty dir) and
itself as the filename. -/
theorem parseUploadsRelPath_no_sep (p : String) (h : '/' ∉ p.data) :
    parseUploadsRelPath p = ⟨"", p⟩ := by
  obtain ⟨l⟩ := p
  simp only [parseUploadsRelPath, pathParse, breakLast_eq_none '/' l h]

/-- The watcher's `add` handler on a record-yielding `processFile` call:
the record is upserted by its identifier, the history event is emitted, and
the thumbnail state is the one the call left. -/
theorem watcherAdd_record (fs : Fs) (st : AgentState) (p : String)
    (r : FileRecord)
    (hres : (processFile fs st.thumbs (parseUploadsRelPath p).folder
        (parseUploadsRelPath p).filename).result = .record r) :
    (watcherAdd fs st p).uplFiles = upsertById st.uplFiles r ∧
    (watcherAdd fs st p).history = .uploaded p :: st.history ∧
    (watcherAdd fs st p).thumbs =
      (processFile fs st.thumbs (parseUploadsRelPath p).folder
        (parseUploadsRelPath p).filename).thumbs := by
  simp [watcherAdd, hres]

/-! ## Claims -/

/-- C1: a record produced by `processFile` has category `image` iff its
sniffed/looked-up MIME type is one of `image/png, image/jpeg, image/gif,
image/bmp` AND its size is strictly less than 3145728 bytes; and a file of
eligible MIME type at or above the threshold still yields a record —
category `binary`, without dimensions — rather than being skipped. -/
theorem c1_image_iff_mime_and_size (fs : Fs) (t : List String)
    (fld f : String) (s : Stat)
    (hstat : fs.stat (filePath fld f) = some s) (hfile : s.isFile = true) :
    (∀ r, (processFile fs t fld f).result = .record r →
      (r.category = "image" ↔
        (mimeFor fs (filePath fld f) (pathParse (filePath fld f)).ext ∈
          imageMimes ∧ s.size < 3145728))) ∧
    (mimeFor fs (filePath fld f) (pathParse (filePath fld f)).ext ∈
        imageMimes → 3145728 ≤ s.size →
      processFile fs t fld f =
        ⟨.record { _id := fileUid fld f, category := "binary",
                   mime := mimeFor fs (filePath fld f)
                            (pathParse (filePath fld f)).ext,
                   extra := none, folder := "f:" ++ fld, filename := f,
                   basename := (pathParse (filePath fld f)).name,
                   filesize := s.size }, t, []⟩) := by
  constructor
  · intro r h
    obtain ⟨s', hstat', _, _, _, _, _, _, hmime, hcat⟩ :=
      processFile_record_eq fs t fld f r h
    rw [hstat] at hstat'
    have hs : s = s' := Option.some.inj hstat'
    subst hs
    rcases hcat with ⟨hcimg, hsz, hm, _⟩ | ⟨hcbin, _, hncond⟩
    · rw [hcimg, ← hmime]
      exact iff_of_true rfl ⟨hm, hsz⟩
    · rw [hcbin, ← hmime]
      constructor
      · intro hc; exact absurd hc (by decide)
      · intro hc; exact absurd ⟨hc.2, hc.1⟩ hncond
  · intro hmime hsz
    have hcond : ¬(s.size < 3145728 ∧
        mimeFor fs (filePath fld f) (pathParse (filePath fld f)).ext ∈
          imageMimes) := fun hc => absurd hc.1 (not_lt.mpr hsz)
    simp [processFile, hstat, hfile, hcond]

/-- C2: the record identifier is a pure deterministic function of the
(folder name, filename) pair: any two record-yielding `processFile` runs
over the same pair — in any environments (runs) and any cache states —
produce the same `_id`, namely the hex MD5 digest of
`folderName + "/" + filename`. -/
theorem c2_identifier_deterministic (fs1 fs2 : Fs) (t1 t2 : List String)
    (fld f : String) (r1 r2 : FileRecord)
    (h1 : (processFile fs1 t1 fld f).result = .record r1)
    (h2 : (processFile fs2 t2 fld f).result = .record r2) :
    r1._id = r2._id ∧ r1._id = md5Hex (fld ++ "/" ++ f) := by
  obtain ⟨_, _, _, hid1, _⟩ := processFile_record_eq fs1 t1 fld f r1 h1
  obtain ⟨_, _, _, hid2, _⟩ := processFile_record_eq fs2 t2 fld f r2 h2
  exact ⟨hid1.trans hid2.symm, hid1⟩

/-- C3: a watcher `add` whose path processes to a record upserts it by its
identifier: a previously-unseen identifier adds exactly one record (with
the identifier computed from the parsed folder/filename), and a second
`add` for the same path overwrites rather than duplicates. -/
theorem c3_watcher_add_upsert (fs : Fs) (st : AgentState) (p : String)
    (r : FileRecord)
    (hres : (processFile fs st.thumbs (parseUploadsRelPath p).folder
        (parseUploadsRelPath p).filename).result = .record r)
    (hnew : ∀ x ∈ st.uplFiles, x._id ≠ r._id) :
    (watcherAdd fs st p).uplFiles = st.uplFiles ++ [r] ∧
    (watcherAdd fs (watcherAdd fs st p) p).uplFiles = st.uplFiles ++ [r] ∧
    r._id = fileUid (parseUploadsRelPath p).folder
      (parseUploadsRelPath p).filename := by
  have h' : processFile fs st.thumbs (parseUploadsRelPath p).folder
      (parseUploadsRelPath p).filename =
      ⟨.record r,
       (processFile fs st.thumbs (parseUploadsRelPath p).folder
        (parseUploadsRelPath p).filename).thumbs,
       (processFile fs st.thumbs (parseUploadsRelPath p).folder
        (parseUploadsRelPath p).filename).gens⟩ := by rw [← hres]
  have hidem := processFile_idem fs st.thumbs (parseUploadsRelPath p).folder
    (parseUploadsRelPath p).filename r _ _ h'
  obtain ⟨hu1, _, ht1⟩ := watcherAdd_record fs st p r hres
  have h1 : (watcherAdd fs st p).uplFiles = st.uplFiles ++ [r] := by
    rw [hu1, upsertById_not_mem st.uplFiles r hnew]
  have hres2 : (processFile fs (watcherAdd fs st p).thumbs
      (parseUploadsRelPath p).folder
      (parseUploadsRelPath p).filename).result = .record r := by
    rw [ht1, hidem]
  obtain ⟨hu2, _, _⟩ := watcherAdd_record fs (watcherAdd fs st p) p r hres2
  obtain ⟨_, _, _, hid, _⟩ := processFile_record_eq fs st.thumbs
    (parseUploadsRelPath p).folder (parseUploadsRelPath p).filename r hres
  refine ⟨h1, ?_, hid⟩
  rw [hu2, h1, upsertById_append_self st.uplFiles r hnew]

/-- C4: a watcher `add` whose processing yields no record (skip or caught
error) leaves both catalog collections unchanged while the `uploaded`
history event is still emitted. -/
theorem c4_watcher_add_no_mutation (fs : Fs) (st : AgentState) (p : String)
    (h : (processFile fs st.thumbs (parseUploadsRelPath p).folder
        (parseUploadsRelPath p).filename).result = .skip ∨
      (processFile fs st.thumbs (parseUploadsRelPath p).folder
        (parseUploadsRelPath p).filename).result = .error) :
    (watcherAdd fs st p).uplFiles = st.uplFiles ∧
    (watcherAdd fs st p).uplFolders = st.uplFolders ∧
    (watcherAdd fs st p).history = .uploaded p :: st.history := by
  rcases h with h | h <;> simp [watcherAdd, h]

/-- C5: a file whose dimension extraction throws during the scan is
processed to a caught error, and its failure is invisible to its siblings:
the per-folder batch accumulates exactly the records it would accumulate
with the failing file absent. -/
theorem c5_partial_failure_resilient (fs : Fs) (fld x : String) (s : Stat)
    (hstat : fs.stat (filePath fld x) = some s) (hfile : s.isFile = true)
    (hsz : s.size < 3145728)
    (hmime : mimeFor fs (filePath fld x) (pathParse (filePath fld x)).ext ∈
      imageMimes)
    (himg : fs.imgSize (filePath fld x) = none) :
    (∀ t, processFile fs t fld x = ⟨.error, t, []⟩) ∧
    (∀ ys zs acc t g,
      processFolderFiles fs fld (ys ++ x :: zs) acc t g =
      processFolderFiles fs fld (ys ++ zs) acc t g) := by
  have hx := processFile_imgSize_none fs fld x s hstat hfile hsz hmime himg
  exact ⟨hx, processFolderFiles_error_transparent fs fld x hx⟩

/-- C6: once the scan reaches the traversal (root listing and top-level
stats succeeded), the FileRecord collection always ends up being exactly
the accumulated traversal records — whatever records it held before. -/
theorem c6_scan_replaces_file_collection (fs : Fs) (st : AgentState)
    (ls : List String) (entries : List (String × Stat))
    (hls : fs.readdir _uploadsPath = some ls)
    (hst : statEntries fs ls = some entries) :
    (initialScan fs st).2.uplFiles =
      (traverseFolders fs
        ("" :: (entries.filter (fun e => e.2.isDirectory)).map (fun e => e.1))
        [] st.thumbs st.genCalls).2.1 ∧
    ∀ recs, (initialScan fs { st with uplFiles := recs }).2.uplFiles =
      (initialScan fs st).2.uplFiles := by
  constructor
  · simp [initialScan, hls, hst]
  · intro recs
    simp [initialScan, hls, hst]

/-- C7 (amended): when the scan reaches its traversal it always ends by
starting the watcher; a failure inside the scan body is caught and logged
and the watcher is not started; a failure of the root directory listing
itself escapes `initialScan` un-logged (the listing happens before the
`try`) and the watcher is not started. -/
theorem c7_watcher_start_conditions :
    (∀ (fs : Fs) (st : AgentState) (ls : List String)
        (entries : List (String × Stat)),
      fs.readdir _uploadsPath = some ls → statEntries fs ls = some entries →
      (initialScan fs st).1 = .watcherStarted) ∧
    (∀ (fs : Fs) (st : AgentState) (ls : List String),
      fs.readdir _uploadsPath = some ls → statEntries fs ls = none →
      (initialScan fs st).1 = .loggedFailure) ∧
    (∀ (fs : Fs) (st : AgentState),
      fs.readdir _uploadsPath = none → (initialScan fs st).1 = .thrown) := by
  refine ⟨?_, ?_, ?_⟩
  · intro fs st ls entries hls hst; simp [initialScan, hls, hst]
  · intro fs st ls hls hst; simp [initialScan, hls, hst]
  · intro fs st h; simp [initialScan, h]

/-- C7 counterexample: when listing the uploads root itself rejects, the
rejection escapes `initialScan` (outcome `thrown`) instead of being caught
and logged by the scan's own `catch` (outcome `loggedFailure`) — the claim
that a root-listing failure "is logged" does not hold of the code; the
watcher is still not started. -/
theorem c7_root_listing_failure_unlogged :
    (initialScan fsNoRoot st0).1 = .thrown ∧
    (initialScan fsNoRoot st0).1 ≠ .loggedFailure := by decide

/-- C8: thumbnailing is idempotent at the `processFile` level: a second
call on the unchanged file, from the cache state the first record-yielding
call left, returns the same record with no `generateThumbnail` invocation
and an unchanged cache; image records carry the extracted dimensions. -/
theorem c8_thumbnail_idempotent (fs : Fs) (t : List String)
    (fld f : String) (r : FileRecord) (t' g : List String)
    (h : processFile fs t fld f = ⟨.record r, t', g⟩) :
    processFile fs t' fld f = ⟨.record r, t', []⟩ ∧
    (r.category = "image" →
      ∃ d, fs.imgSize (filePath fld f) = some d ∧ r.extra = some d) := by
  refine ⟨processFile_idem fs t fld f r t' g h, ?_⟩
  intro hcat
  have hres : (processFile fs t fld f).result = .record r := by rw [h]
  obtain ⟨_, _, _, _, _, _, _, _, _, hc⟩ :=
    processFile_record_eq fs t fld f r hres
  rcases hc with ⟨_, _, _, d, hd, he⟩ | ⟨hbin, _, _⟩
  · exact ⟨d, hd, he⟩
  · rw [hbin] at hcat; exact absurd hcat (by decide)

/-- C9: the watcher's `unlink` handler only emits the `deleted` history
event: file records, folder records, the thumbnail cache and the
generation trace are all left unchanged. -/
theorem c9_unlink_only_emits_event (st : AgentState) (p : String) :
    (watcherUnlink st p).uplFiles = st.uplFiles ∧
    (watcherUnlink st p).uplFolders = st.uplFolders ∧
    (watcherUnlink st p).thumbs = st.thumbs ∧
    (watcherUnlink st p).genCalls = st.genCalls ∧
    (watcherUnlink st p).history = .deleted p :: st.history :=
  ⟨rfl, rfl, rfl, rfl, rfl⟩

/-- C10: a root-level upload path (no separator) parses to folder `""` and
itself as filename, so the watcher's `processFile` call coincides with the
initial scan's call for the same file under the root folder: same result,
same identifier, same folder key. -/
theorem c10_root_level_agreement (p : String) (h : '/' ∉ p.data) :
    parseUploadsRelPath p = ⟨"", p⟩ ∧
    (∀ fs t, processFile fs t (parseUploadsRelPath p).folder
        (parseUploadsRelPath p).filename = processFile fs t "" p) ∧
    fileUid (parseUploadsRelPath p).folder (parseUploadsRelPath p).filename =
      fileUid "" p ∧
    "f:" ++ (parseUploadsRelPath p).folder = "f:" ++ "" := by
  have hp := parseUploadsRelPath_no_sep p h
  exact ⟨hp, fun fs t => by rw [hp], by rw [hp], by rw [hp]⟩

/-! ## Witnesses -/

/-- C1 witness: in the demo tree, `a/f3.png` (png, 3145727 bytes) is
classified by the iff, and `a/f4.png` (png, exactly 3145728 bytes) yields
the dimensionless binary record. -/
theorem c1_witness :
    (demoRec3.category = "image" ↔
      (mimeFor fsDemo (filePath "a" "f3.png")
          (pathParse (filePath "a" "f3.png")).ext ∈ imageMimes ∧
        (Stat.mk true false 3145727).size < 3145728)) ∧
    processFile fsDemo [] "a" "f4.png" =
      ⟨.record { _id := fileUid "a" "f4.png", category := "binary",
                 mime := mimeFor fsDemo (filePath "a" "f4.png")
                          (pathParse (filePath "a" "f4.png")).ext,
                 extra := none, folder := "f:" ++ "a", filename := "f4.png",
                 basename := (pathParse (filePath "a" "f4.png")).name,
                 filesize := (Stat.mk true false 3145728).size }, [], []⟩ :=
  ⟨(c1_image_iff_mime_and_size fsDemo [] "a" "f3.png" ⟨true, false, 3145727⟩
      (by decide) rfl).1 demoRec3 (by decide),
   (c1_image_iff_mime_and_size fsDemo [] "a" "f4.png" ⟨true, false, 3145728⟩
      (by decide) rfl).2 (by decide) (by decide)⟩

/-- C2 witness: two runs over `a/f1.png` with different file content (the
file was rewritten between runs) still produce the same identifier, the MD5
digest of `a/f1.png`. -/
theorem c2_witness :
    demoRec1._id = demoRec1Alt._id ∧
    demoRec1._id = md5Hex ("a" ++ "/" ++ "f1.png") :=
  c2_identifier_deterministic fsDemo fsAlt [] [] "a" "f1.png"
    demoRec1 demoRec1Alt (by decide) (by decide)

/-- C3 witness: an `add` event for `a/f1.png` on an empty catalog inserts
exactly its record; a second `add` leaves the catalog identical. -/
theorem c3_witness :
    (watcherAdd fsDemo st0 "a/f1.png").uplFiles = st0.uplFiles ++ [demoRec1] ∧
    (watcherAdd fsDemo (watcherAdd fsDemo st0 "a/f1.png")
        "a/f1.png").uplFiles = st0.uplFiles ++ [demoRec1] ∧
    demoRec1._id = fileUid (parseUploadsRelPath "a/f1.png").folder
      (parseUploadsRelPath "a/f1.png").filename :=
  c3_watcher_add_upsert fsDemo st0 "a/f1.png" demoRec1 (by decide) (by decide)

/-- C4 witness: an `add` event for a path whose stat rejects (caught error)
mutates no collection and still emits the uploaded event. -/
theorem c4_witness :
    (watcherAdd fsDemo st0 "a/ghost.png").uplFiles = st0.uplFiles ∧
    (watcherAdd fsDemo st0 "a/ghost.png").uplFolders = st0.uplFolders ∧
    (watcherAdd fsDemo st0 "a/ghost.png").history =
      .uploaded "a/ghost.png" :: st0.history :=
  c4_watcher_add_no_mutation fsDemo st0 "a/ghost.png" (Or.inr (by decide))

/-- C5 witness: in the five-file folder `a`, `bad.png` (whose dimension
extraction fails) is processed to a caught error and the batch accumulates
exactly the records of the other four files. -/
theorem c5_witness :
    processFile fsDemo [] "a" "bad.png" = ⟨.error, [], []⟩ ∧
    processFolderFiles fsDemo "a"
        (["f1.png"] ++ "bad.png" :: ["f2.txt", "f3.png", "f4.png"]) [] [] [] =
      processFolderFiles fsDemo "a"
        (["f1.png"] ++ ["f2.txt", "f3.png", "f4.png"]) [] [] [] := by
  have h := c5_partial_failure_resilient fsDemo "a" "bad.png"
    ⟨true, false, 20⟩ (by decide) rfl (by decide) (by decide) (by decide)
  exact ⟨h.1 [], h.2 ["f1.png"] ["f2.txt", "f3.png", "f4.png"] [] [] []⟩

/-- C6 witness: scanning the demo tree ends with the FileRecord collection
equal to the traversal's accumulated records, and a junk pre-existing
collection is wiped: the final collection does not depend on it. -/
theorem c6_witness :
    (initialScan fsDemo st0).2.uplFiles =
      (traverseFolders fsDemo
        ("" :: ([("a", Stat.mk false true 0), ("x.png", Stat.mk true false 5)].filter
          (fun e => e.2.isDirectory)).map (fun e => e.1))
        [] st0.thumbs st0.genCalls).2.1 ∧
    (initialScan fsDemo { st0 with uplFiles := [noRecord] }).2.uplFiles =
      (initialScan fsDemo st0).2.uplFiles := by
  have h := c6_scan_replaces_file_collection fsDemo st0 ["a", "x.png"]
    [("a", ⟨false, true, 0⟩), ("x.png", ⟨true, false, 5⟩)]
    (by decide) (by decide)
  exact ⟨h.1, h.2 [noRecord]⟩

/-- C7 witness: the demo scan starts the watcher; a failing top-level stat
is caught and logged without starting the watcher; a failing root listing
escapes as a thrown rejection. -/
theorem c7_witness :
    (initialScan fsDemo st0).1 = .watcherStarted ∧
    (initialScan fsStatFail st0).1 = .loggedFailure ∧
    (initialScan fsNoRoot st0).1 = .thrown :=
  ⟨c7_watcher_start_conditions.1 fsDemo st0 ["a", "x.png"]
      [("a", ⟨false, true, 0⟩), ("x.png", ⟨true, false, 5⟩)]
      (by decide) (by decide),
   c7_watcher_start_conditions.2.1 fsStatFail st0 ["ghost"]
      (by decide) (by decide),
   c7_watcher_start_conditions.2.2 fsNoRoot st0 (by decide)⟩

/-- C8 witness: reprocessing `a/f1.png` from the cache state its first
processing left returns the same record, does not touch the cache and
invokes no thumbnail generation; its record carries the dimensions. -/
theorem c8_witness :
    processFile fsDemo [thumbPath (fileUid "a" "f1.png")] "a" "f1.png" =
      ⟨.record demoRec1, [thumbPath (fileUid "a" "f1.png")], []⟩ ∧
    (demoRec1.category = "image" →
      ∃ d, fsDemo.imgSize (filePath "a" "f1.png") = some d ∧
        demoRec1.extra = some d) :=
  c8_thumbnail_idempotent fsDemo [] "a" "f1.png" demoRec1
    [thumbPath (fileUid "a" "f1.png")] [filePath "a" "f1.png"] (by decide)

/-- C10 witness: the bare filename `x.png` parses to the root folder and
the watcher's processing coincides with the scan's root-folder processing. -/
theorem c10_witness :
    parseUploadsRelPath "x.png" = ⟨"", "x.png"⟩ ∧
    processFile fsDemo [] (parseUploadsRelPath "x.png").folder
      (parseUploadsRelPath "x.png").filename = processFile fsDemo [] "" "x.png" ∧
    fileUid (parseUploadsRelPath "x.png").folder
      (parseUploadsRelPath "x.png").filename = fileUid "" "x.png" ∧
    "f:" ++ (parseUploadsRelPath "x.png").folder = "f:" ++ "" := by
  have h := c10_root_level_agreement "x.png" (by decide)
  exact ⟨h.1, h.2.1 fsDemo [], h.2.2.1, h.2.2.2⟩

end UploadsAgent
